import Mathlib

/-!
Verification of the Laptop-Recommendation-Agent backend.

The development shallow-embeds the retrieval service
(`backend/app/services/rag_service.py`), the Gemini response interpreter
(`backend/app/services/gemini_provider.py`) and the merge step
(`backend/app/services/llm_service.py`).  Python floats are modelled as
exact rationals, Python strings as Lean strings manipulated through
their character lists, and the two external text parsers used by the
interpreter (`json.loads` and the regex salvage `_heuristic_parse`) as
explicit function parameters, so every theorem quantifies over their
behaviour.
-/

namespace LaptopRec

/-! ### Python string primitives -/

/-- Default whitespace test used by Python `str.strip` / `str.split`. -/
def pyWs (c : Char) : Bool := c.isWhitespace

/-- `str.strip()`: drop leading and trailing whitespace. -/
def pyStrip (s : String) : String :=
  String.mk (((s.toList.dropWhile pyWs).reverse.dropWhile pyWs).reverse)

/-- `str.lower()` (catalogue data is ASCII). -/
def pyLower (s : String) : String :=
  String.mk (s.toList.map Char.toLower)

/-- Occurrence test on character lists: Python `sub in s`. -/
def charsContains : List Char → List Char → Bool
  | [], sub => sub.isEmpty
  | c :: rest, sub => sub.isPrefixOf (c :: rest) || charsContains rest sub

/-- Python substring test `sub in s`. -/
def pyInStr (sub s : String) : Bool := charsContains s.toList sub.toList

/-- Split a character stream into maximal runs of characters kept by
`keep`; the second argument accumulates the current (reversed) run. -/
def splitRuns (keep : Char → Bool) : List Char → List Char → List String
  | [], acc => if acc.isEmpty then [] else [String.mk acc.reverse]
  | c :: rest, acc =>
      if keep c then splitRuns keep rest (c :: acc)
      else if acc.isEmpty then splitRuns keep rest []
      else String.mk acc.reverse :: splitRuns keep rest []

/-- Python `str.split()` with no arguments: split on whitespace runs. -/
def pySplitWs (s : String) : List String :=
  splitRuns (fun c => !pyWs c) s.toList []

/-- Python truthy `or` on an optional string against a string default:
`a or b` where the empty string is falsy. -/
def pyOrStr (a : Option String) (b : String) : String :=
  match a with
  | some s => if s = "" then b else s
  | none => b

/-- Python truthy `or` chaining two optional strings. -/
def orFalsyStr (a b : Option String) : Option String :=
  match a with
  | some s => if s = "" then b else some s
  | none => b

/-- Rewrite `@` to an apostrophe, so catalogue phrases such as
`don@t have any` carry the apostrophe of the original source text. -/
def aq (s : String) : String :=
  String.mk (s.toList.map (fun c => if c = '@' then Char.ofNat 39 else c))

/-! ### Data model (`backend/app/models.py`) -/

/-- Catalogue entry (`Product`); `price` models the Python float. -/
structure Product where
  sku : String
  vendor : String
  family : String
  name : String
  description : String
  cpu : String
  gpu : String
  storage : String
  ram : String
  price : ℚ
deriving DecidableEq

/-- Product returned from search (`RetrievedProduct`), a `Product` plus
similarity metadata.  The optional scraped `knowledge` payload is not
consumed by any verified code path and is omitted. -/
structure RetrievedProduct extends Product where
  similarity : ℚ
  matchedKeywords : Option (List String)
  explanation : Option String
deriving DecidableEq

/-- The slice of `AppSettings` consumed by the retrieval service. -/
structure Settings where
  ragTopK : ℕ
  enableHybridSearch : Bool
deriving DecidableEq

/-- Caller preferences consulted by `_parse_filters`.  A `none` field
models an absent or falsy entry of the preference dictionary; present
price bounds model values whose `str(...)` form is non-blank and that
`float(...)` accepts. -/
structure UserPreferences where
  priceMin : Option ℚ
  priceMax : Option ℚ
  vendor : Option String
  gpu : Option String
  family : Option String
deriving DecidableEq

/-- Parsed filter dictionary produced by `_parse_filters`. -/
structure Filters where
  priceRange : Option (ℚ × Option ℚ)
  vendor : Option String
  gpu : Option String
  family : Option String
deriving DecidableEq

/-! ### Retrieval service (`rag_service.py`) -/

/-- `RAGService._parse_filters`. -/
def parse_filters : Option UserPreferences → Filters
  | none => ⟨none, none, none, none⟩
  | some u =>
      { priceRange :=
          if u.priceMin.isSome || u.priceMax.isSome then
            some (u.priceMin.getD 0, u.priceMax)
          else none
        vendor := u.vendor.bind (fun v => if v = "" then none else some (pyLower v))
        gpu := u.gpu.bind (fun v => if v = "" then none else some (pyLower v))
        family := u.family.bind (fun v => if v = "" then none else some (pyLower v)) }

/-- The price-range test of `_passes_filters`: reject below the floor,
and above an explicit ceiling. -/
def price_filter_ok (product : Product) (priceRange : Option (ℚ × Option ℚ)) : Bool :=
  match priceRange with
  | none => true
  | some (low, high) =>
      if product.price < low then false
      else match high with
           | none => true
           | some h => !(h < product.price)

/-- One `vendor`/`gpu`/`family` test of `_passes_filters`:
`if value and value not in field.lower(): return False` (the parsed
filter value is already lowered). -/
def substr_filter_ok (field : String) (filterValue : Option String) : Bool :=
  match filterValue with
  | none => true
  | some v => if v = "" then true else pyInStr v (pyLower field)

/-- `RAGService._passes_filters`. -/
def passes_filters (product : Product) (filters : Filters) : Bool :=
  price_filter_ok product filters.priceRange &&
  substr_filter_ok product.vendor filters.vendor &&
  substr_filter_ok product.gpu filters.gpu &&
  substr_filter_ok product.family filters.family

/-- Characters kept by the token regex `[a-zA-Z0-9\-\+\.]+`. -/
def isTermChar (c : Char) : Bool :=
  c.isAlpha || c.isDigit || c = '-' || c = '+' || c = '.'

/-- `RAGService._extract_terms`: regex tokens of the lowered text. -/
def extract_terms (text : String) : List String :=
  splitRuns isTermChar (pyLower text).toList []

/-- `RAGService._extract_keywords`: distinct tokens, longer than two
characters, of the joined searchable fields.  (The Python code sorts the
deduplicated tokens; only membership in the result is ever consumed, so
the normalising sort is dropped.) -/
def extract_keywords (product : Product) : List String :=
  let baseFields := String.intercalate " "
    [product.name, product.description, product.cpu, product.gpu, product.ram, product.storage]
  ((extract_terms baseFields).dedup).filter (fun token => token.length > 2)

/-- `RAGService._keyword_score`.  The keyword index lookup
`token in index and sku in index[token]` is inlined to membership in
`extract_keywords product` (SKUs are unique in the catalogue). -/
def keyword_score (query : String) (product : Product) : ℚ × List String :=
  let queryTokens := (extract_terms query).dedup
  let matchedTokens := queryTokens.filter (fun token => token ∈ extract_keywords product)
  if matchedTokens.isEmpty then (0, [])
  else (min ((matchedTokens.length : ℚ) * (1 / 20)) (1 / 5), matchedTokens)

/-- A scored search candidate: `RAGService.search` keeps pairs
`(combined_score, retrieved)`; the catalogue index of the entry is kept
alongside so that the order of the result can be reasoned about. -/
structure ScoredEntry where
  score : ℚ
  idx : ℕ
  item : RetrievedProduct
deriving DecidableEq

/-- The order realised by the Python stable sort
`sort(key=lambda item: item[0], reverse=True)`: descending score, and on
equal scores ascending original position.  On entries with pairwise
distinct indices this total preorder pins down the stable result. -/
def rank (a b : ScoredEntry) : Prop :=
  b.score < a.score ∨ (a.score = b.score ∧ a.idx ≤ b.idx)

instance : DecidableRel rank := fun a b => by
  unfold rank; infer_instance

instance : IsTotal ScoredEntry rank := by
  constructor
  intro a b
  rcases lt_trichotomy a.score b.score with h | h | h
  · exact Or.inr (Or.inl h)
  · rcases Nat.le_total a.idx b.idx with hi | hi
    · exact Or.inl (Or.inr ⟨h, hi⟩)
    · exact Or.inr (Or.inr ⟨h.symm, hi⟩)
  · exact Or.inl (Or.inl h)

instance : IsTrans ScoredEntry rank := by
  constructor
  intro a b c hab hbc
  rcases hab with hab | ⟨hab, hab2⟩ <;> rcases hbc with hbc | ⟨hbc, hbc2⟩
  · exact Or.inl (lt_trans hbc hab)
  · exact Or.inl (hbc ▸ hab)
  · exact Or.inl (lt_of_lt_of_le hbc (le_of_eq hab.symm))
  · exact Or.inr ⟨hab.trans hbc, le_trans hab2 hbc2⟩

/-- One loop iteration of `RAGService.search`: score the product at
catalogue index `i` against the query.  `sem i` models the cosine
similarity row `similarities[i]` of the normalised embedding matrix. -/
def scoreEntry (cfg : Settings) (query : String) (sem : ℕ → ℚ) :
    ℕ × Product → ScoredEntry
  | (i, product) =>
      let ks := if cfg.enableHybridSearch then keyword_score query product else (0, [])
      let combined := sem i + ks.1
      ⟨combined, i,
        { toProduct := product
          similarity := combined
          matchedKeywords := if ks.2.isEmpty then none else some ks.2
          explanation := none }⟩

/-- `top_k or self.settings.rag_top_k`: `None` and `0` are falsy. -/
def effectiveTopK (cfg : Settings) (topK : Option ℕ) : ℕ :=
  match topK with
  | none => cfg.ragTopK
  | some k => if k = 0 then cfg.ragTopK else k

/-- `RAGService.search`, instrumented: each returned product keeps its
combined score and catalogue index.  The embedding matrix is abstracted
into the similarity row `sem`; the empty-query `ValueError` becomes the
`Except.error` branch. -/
def searchRanked (cfg : Settings) (products : List Product) (sem : ℕ → ℚ)
    (query : String) (userPreferences : Option UserPreferences)
    (topK : Option ℕ) : Except String (List ScoredEntry) :=
  if pyStrip query = "" then .error "Query text must not be empty."
  else
    let filters := parse_filters userPreferences
    let k := effectiveTopK cfg topK
    let scored := ((products.enum).filter
        (fun ip => passes_filters ip.2 filters)).map (scoreEntry cfg query sem)
    .ok ((scored.insertionSort rank).take k)

/-- `RAGService.search` as the caller sees it: the ranked list with the
instrumentation projected away. -/
def search (cfg : Settings) (products : List Product) (sem : ℕ → ℚ)
    (query : String) (userPreferences : Option UserPreferences)
    (topK : Option ℕ) : Except String (List RetrievedProduct) :=
  (searchRanked cfg products sem query userPreferences topK).map
    (List.map ScoredEntry.item)

/-! ### Index persistence (`rag_service.py`) -/

/-- The persisted artifacts read by `_load_or_build_index`: the stored
embedding matrix (`.npy`, a list of vectors) and the sidecar metadata
manifest (`.meta.json`, the persisted SKU order).  `none` at the use
site models absence of either file or a failure to read them. -/
structure PersistedIndex where
  vectors : List (List ℚ)
  skuOrder : List String
deriving DecidableEq

/-- Where the in-memory index came from. -/
inductive IndexSource where
  | loaded
  | rebuilt
deriving DecidableEq

/-- `RAGService._build_index`: re-embed every catalogue item.  `embed`
models `_embed_text ∘ _product_text` composed with normalisation. -/
def build_index (embed : Product → List ℚ) (products : List Product) :
    List (List ℚ) :=
  products.map embed

/-- `RAGService._load_or_build_index`.  The load path raises (and the
caller catches, then rebuilds) when the stored vector count differs from
the catalogue length or the persisted SKU manifest differs from the
current catalogue SKU order. -/
def load_or_build_index (embed : Product → List ℚ) (products : List Product)
    (persisted : Option PersistedIndex) : List (List ℚ) × IndexSource :=
  match persisted with
  | some st =>
      if st.vectors.length = products.length ∧
         st.skuOrder = products.map Product.sku then
        (st.vectors, .loaded)
      else (build_index embed products, .rebuilt)
  | none => (build_index embed products, .rebuilt)

/-! ### LLM data structures (`llm_types.py`) -/

/-- `LLMProductRecommendation`. -/
structure LLMProductRecommendation where
  sku : String
  name : String
  rationale : String
  confidence : Option ℚ
deriving DecidableEq

/-- `LLMResult`. -/
structure LLMResult where
  reply : String
  reasoning : Option String
  recommendations : List LLMProductRecommendation
deriving DecidableEq

/-! ### Gemini response interpreter (`gemini_provider.py`) -/

/-- One entry of the `product_recommendations` JSON array as the
interpreter reads it: `sku` models `str(item.get("sku", ""))`, the
remaining fields model `item.get(...)` with `none` for an absent key,
and `confidence` is `some` exactly when `float(...)` succeeds. -/
structure RecItem where
  sku : String
  name : Option String
  rationale : Option String
  reason : Option String
  confidence : Option ℚ
deriving DecidableEq

/-- The JSON object produced by a successful `json.loads` on the raw
model text, restricted to the keys the interpreter reads. -/
structure Payload where
  reply : Option String
  reasoning : Option String
  analysis : Option String
  productRecommendations : Option (List RecItem)
  recommendations : Option (List RecItem)
deriving DecidableEq

/-- `payload.get("product_recommendations") or payload.get("recommendations") or []`
(an empty list is falsy). -/
def recsPayloadOf (payload : Payload) : List RecItem :=
  match payload.productRecommendations with
  | some (x :: xs) => x :: xs
  | _ => (payload.recommendations).getD []

/-- `GeminiProvider._product_name_for_sku`. -/
def product_name_for_sku (products : List RetrievedProduct) (sku : String) :
    Option String :=
  (products.find? (fun p => p.sku == sku)).map (fun p => p.name)

/-- The structured-payload recommendation loop of `parse_response_text`:
entries with a blank SKU are skipped, the display name falls back to the
context lookup and then to the SKU itself, the rationale to `reason`
and then to the empty string. -/
def buildRecs (contextProducts : List RetrievedProduct) (items : List RecItem) :
    List LLMProductRecommendation :=
  items.filterMap (fun item =>
    let sku := pyStrip item.sku
    if sku = "" then none
    else some
      { sku := sku
        name := pyOrStr item.name
          (pyOrStr (product_name_for_sku contextProducts sku) sku)
        rationale := pyOrStr item.rationale (pyOrStr item.reason "")
        confidence := item.confidence })

/-- `GeminiProvider._reply_indicates_no_results`. -/
def reply_indicates_no_results (reply : String) : Bool :=
  if reply = "" then false
  else
    let text := pyLower reply
    let hardClauses : List String :=
      ["no laptops", "no systems", "no options", "no matches", "no matching",
       "none of the laptops", "none of these laptops",
       aq "don@t have any", "do not have any",
       aq "can@t find any", "cannot find any", aq "couldn@t find any",
       aq "unfortunately i don@t have"]
    if hardClauses.any (fun clause => pyInStr clause text) then true
    else
      let softClauses : List String := ["closest option is", "over your budget"]
      let negativeTones : List String :=
        ["unfortunately", "sorry", aq "can@t", "cannot", aq "don@t", "do not", "no "]
      (softClauses.any (fun clause => pyInStr clause text)) &&
        (negativeTones.any (fun token => pyInStr token text))

/-- `GeminiProvider._fallback_result`. -/
def fallback_result (rawText : String) (contextProducts : List RetrievedProduct) :
    LLMResult :=
  { reply := pyStrip rawText
    reasoning := none
    recommendations := (contextProducts.take 2).map (fun product =>
      { sku := product.sku
        name := product.name
        rationale := pyOrStr product.explanation
          "Recommended based on similarity to your request."
        confidence := none }) }

/-- The mention test of `_parse_plain_text_response` for one context
product, returning the recommendation when the product counts as
mentioned in the lowered raw text. -/
def mentionRec (textLower : String) (product : RetrievedProduct) :
    Option LLMProductRecommendation :=
  let productNameLower := pyLower product.name
  let nameParts := pySplitWs productNameLower
  let significantParts := nameParts.filter (fun part =>
    part.length > 3 && part ∉ ["laptop", "notebook", "the", "and"])
  let isMentioned :=
    if pyInStr productNameLower textLower then true
    else if significantParts.length ≥ 2 then
      (significantParts.take 2).all (fun part => pyInStr part textLower)
    else if significantParts.length = 1 then
      (significantParts.all (fun part => pyInStr part textLower))
    else false
  if isMentioned then
    some { sku := product.sku, name := product.name
           rationale := "Recommended in conversation", confidence := none }
  else none

/-- `GeminiProvider._parse_plain_text_response`. -/
def parse_plain_text_response (text : String)
    (contextProducts : List RetrievedProduct) : LLMResult :=
  let reply := pyStrip text
  let replyLower := pyLower reply
  let isQuestion := pyInStr "?" reply
  if isQuestion then
    { reply := reply, reasoning := some "Asking for clarification", recommendations := [] }
  else
    let recommendationKeywords : List String :=
      ["recommend", "suggest", "great choice", "perfect for", "ideal for", "best option"]
    let isRecommending := recommendationKeywords.any
      (fun keyword => pyInStr keyword replyLower)
    if !isRecommending then
      { reply := reply, reasoning := none, recommendations := [] }
    else
      let textLower := pyLower text
      let mentionedProducts := contextProducts.filterMap (mentionRec textLower)
      if !mentionedProducts.isEmpty then
        { reply := reply
          reasoning := some "Products extracted from conversational response"
          recommendations := mentionedProducts.take 2 }
      else
        { reply := reply
          reasoning := some "Fallback recommendations"
          recommendations := (contextProducts.take 2).map (fun product =>
            { sku := product.sku, name := product.name
              rationale := "Recommended based on your requirements"
              confidence := none }) }

/-- The JSON-shape probe of `parse_response_text`:
`stripped.startswith("{") and stripped.endswith("}")`. -/
def isJsonLike (text : String) : Bool :=
  let stripped := (pyStrip text).toList
  (stripped.head? == some '\x7b') && (stripped.getLast? == some '\x7d')

/-- Keep the suffix starting at the first occurrence of `c`. -/
def fromFirst (c : Char) : List Char → Option (List Char)
  | [] => none
  | a :: rest => if a = c then some (a :: rest) else fromFirst c rest

/-- The salvage slice `raw_text[raw_text.find("{") : raw_text.rfind("}") + 1]`,
when both braces occur in that order. -/
def braceSnippet (text : String) : Option String :=
  (fromFirst '\x7b' text.toList).bind (fun fromBrace =>
    (fromFirst '\x7d' fromBrace.reverse).map (fun upToBrace =>
      String.mk upToBrace.reverse))

/-- The body of `parse_response_text` once `json.loads` has produced a
payload object. -/
def structuredResult (payload : Payload)
    (contextProducts : List RetrievedProduct) : LLMResult :=
  let reply := pyStrip (payload.reply.getD "")
  let reasoning := orFalsyStr payload.reasoning payload.analysis
  let recommendations := buildRecs contextProducts (recsPayloadOf payload)
  let replyIsQuestion := pyInStr "?" reply
  let replyBlocksRecommendations := reply_indicates_no_results reply
  let finalRecs :=
    if recommendations.isEmpty && !contextProducts.isEmpty && !(reply == "") &&
       !replyIsQuestion && !replyBlocksRecommendations then
      (contextProducts.take 2).map (fun product =>
        { sku := product.sku
          name := product.name
          rationale := pyOrStr product.explanation
            "Top match based on your requirements."
          confidence := none })
    else recommendations
  { reply := pyStrip reply, reasoning := reasoning, recommendations := finalRecs }

/-- `GeminiProvider.parse_response_text`.  `jsonLoads` models
`json.loads(·, strict=False)` (`none` for a `JSONDecodeError`) and
`heuristic` models the regex salvage `_heuristic_parse` (`none` when it
finds neither a reply nor items); both are abstracted as functions. -/
def parse_response_text (jsonLoads : String → Option Payload)
    (heuristic : String → Option LLMResult) (text : String)
    (contextProducts : List RetrievedProduct) : LLMResult :=
  if text = "" then { reply := "", reasoning := none, recommendations := [] }
  else if isJsonLike text then
    match jsonLoads text with
    | some payload => structuredResult payload contextProducts
    | none =>
        match braceSnippet text with
        | some snippet =>
            match jsonLoads snippet with
            | some payload => structuredResult payload contextProducts
            | none =>
                match heuristic text with
                | some result => result
                | none => fallback_result text contextProducts
        | none =>
            match heuristic text with
            | some result => result
            | none => fallback_result text contextProducts
  else parse_plain_text_response text contextProducts

/-! ### Merge step (`llm_service.py`) -/

/-- Lookup in the dictionary comprehension
`{product.sku: product for product in retrieved_products}`: on duplicate
SKUs the last binding wins. -/
def dictBySkuGet (retrievedProducts : List RetrievedProduct) (sku : String) :
    Option RetrievedProduct :=
  retrievedProducts.reverse.find? (fun p => p.sku == sku)

/-- `LLMService.merge_recommendations`. -/
def merge_recommendations (retrievedProducts : List RetrievedProduct)
    (llmResult : LLMResult) : List RetrievedProduct :=
  if llmResult.recommendations.isEmpty then []
  else
    llmResult.recommendations.filterMap (fun recommendation =>
      (dictBySkuGet retrievedProducts recommendation.sku).map (fun product =>
        { product with explanation := some recommendation.rationale }))

/-! ### Helper lemmas: strings -/

theorem charsContains_singleton (c : Char) (l : List Char) :
    charsContains l [c] = true ↔ c ∈ l := by
  induction l with
  | nil => simp [charsContains]
  | cons a rest ih =>
      simp only [charsContains, List.isPrefixOf, Bool.or_eq_true, ih]
      constructor
      · rintro (h | h)
        · simp only [Bool.and_eq_true, beq_iff_eq] at h
          exact List.mem_cons.mpr (Or.inl h.1)
        · exact List.mem_cons.mpr (Or.inr h)
      · intro h
        rcases List.mem_cons.mp h with h | h
        · exact Or.inl (by simp [h])
        · exact Or.inr h

theorem mem_dropWhile_of_mem {p : Char → Bool} {c : Char} {l : List Char}
    (hc : p c = false) (h : c ∈ l) : c ∈ l.dropWhile p := by
  induction l with
  | nil => cases h
  | cons a rest ih =>
      rcases List.mem_cons.mp h with rfl | h
      · rw [List.dropWhile_cons, hc]
        simp
      · rw [List.dropWhile_cons]
        by_cases ha : p a
        · simp only [ha, if_true]
          exact ih h
        · simp only [ha, if_false]
          exact List.mem_cons.mpr (Or.inr h)

theorem mem_pyStrip {c : Char} {s : String} (hc : pyWs c = false)
    (h : c ∈ s.toList) : c ∈ (pyStrip s).toList := by
  unfold pyStrip
  have h1 : c ∈ s.toList.dropWhile pyWs := mem_dropWhile_of_mem hc h
  have h2 : c ∈ (s.toList.dropWhile pyWs).reverse := List.mem_reverse.mpr h1
  have h3 : c ∈ (s.toList.dropWhile pyWs).reverse.dropWhile pyWs :=
    mem_dropWhile_of_mem hc h2
  simpa using List.mem_reverse.mpr h3

theorem pyInStr_question_iff (s : String) :
    pyInStr "?" s = true ↔ '?' ∈ s.toList := by
  have : ("?" : String).toList = ['?'] := rfl
  rw [pyInStr, this, charsContains_singleton]

/-! ### Helper lemmas: enumeration and ordering -/

theorem le_fst_of_mem_enumFrom {α : Type*} :
    ∀ {l : List α} {n : ℕ} {x : ℕ × α}, x ∈ l.enumFrom n → n ≤ x.1 := by
  intro l
  induction l with
  | nil => intro n x h; cases h
  | cons a rest ih =>
      intro n x h
      rcases List.mem_cons.mp h with rfl | h
      · exact le_refl n
      · exact Nat.le_of_succ_le (ih h)

theorem pairwise_fst_lt_enumFrom {α : Type*} :
    ∀ (l : List α) (n : ℕ),
      List.Pairwise (fun a b : ℕ × α => a.1 < b.1) (l.enumFrom n) := by
  intro l
  induction l with
  | nil => intro n; simp
  | cons a rest ih =>
      intro n
      refine List.pairwise_cons.mpr ⟨?_, ih (n + 1)⟩
      intro y hy
      exact Nat.lt_of_succ_le (le_fst_of_mem_enumFrom hy)

theorem pairwise_fst_lt_enum {α : Type*} (l : List α) :
    List.Pairwise (fun a b : ℕ × α => a.1 < b.1) l.enum :=
  pairwise_fst_lt_enumFrom l 0

/-- The filtered, scored candidate list built inside `RAGService.search`
before it is sorted and truncated. -/
def scoredOf (cfg : Settings) (products : List Product) (sem : ℕ → ℚ)
    (query : String) (userPreferences : Option UserPreferences) :
    List ScoredEntry :=
  ((products.enum).filter
      (fun ip => passes_filters ip.2 (parse_filters userPreferences))).map
    (scoreEntry cfg query sem)

theorem searchRanked_ok {cfg : Settings} {products : List Product} {sem : ℕ → ℚ}
    {query : String} {userPreferences : Option UserPreferences} {topK : Option ℕ}
    (hq : pyStrip query ≠ "") :
    searchRanked cfg products sem query userPreferences topK =
      .ok ((List.insertionSort rank
            (scoredOf cfg products sem query userPreferences)).take
          (effectiveTopK cfg topK)) := by
  simp [searchRanked, scoredOf, hq]

theorem idx_scoreEntry (cfg : Settings) (query : String) (sem : ℕ → ℚ)
    (ip : ℕ × Product) : (scoreEntry cfg query sem ip).idx = ip.1 := by
  rcases ip with ⟨i, p⟩; rfl

theorem pairwise_idx_lt_scoredOf (cfg : Settings) (products : List Product)
    (sem : ℕ → ℚ) (query : String) (userPreferences : Option UserPreferences) :
    List.Pairwise (fun a b : ScoredEntry => a.idx < b.idx)
      (scoredOf cfg products sem query userPreferences) := by
  unfold scoredOf
  refine List.pairwise_map.mpr ?_
  have hfil := (pairwise_fst_lt_enum products).sublist
    (List.filter_sublist (l := products.enum)
      (p := fun ip => passes_filters ip.2 (parse_filters userPreferences)))
  refine hfil.imp ?_
  intro a b h
  rw [idx_scoreEntry, idx_scoreEntry]
  exact h

theorem passes_of_mem_scoredOf {cfg : Settings} {products : List Product}
    {sem : ℕ → ℚ} {query : String} {userPreferences : Option UserPreferences}
    {e : ScoredEntry}
    (h : e ∈ scoredOf cfg products sem query userPreferences) :
    passes_filters e.item.toProduct (parse_filters userPreferences) = true := by
  unfold scoredOf at h
  rcases List.mem_map.mp h with ⟨ip, hip, rfl⟩
  rcases ip with ⟨i, p⟩
  have hpass := (List.mem_filter.mp hip).2
  simpa [scoreEntry] using hpass

/-- The strict form of the result order: strictly descending score, or
equal scores listed in strictly ascending catalogue position. -/
def strictRank (a b : ScoredEntry) : Prop :=
  b.score < a.score ∨ (a.score = b.score ∧ a.idx < b.idx)

theorem pairwise_strictRank_sorted (cfg : Settings) (products : List Product)
    (sem : ℕ → ℚ) (query : String) (userPreferences : Option UserPreferences) :
    List.Pairwise strictRank
      (List.insertionSort rank (scoredOf cfg products sem query userPreferences)) := by
  set l := scoredOf cfg products sem query userPreferences with hl
  have hperm : List.Perm (List.insertionSort rank l) l := List.perm_insertionSort rank l
  have hrank : List.Pairwise rank (List.insertionSort rank l) :=
    List.sorted_insertionSort rank l
  have hne_l : List.Pairwise (fun a b : ScoredEntry => a.idx ≠ b.idx) l :=
    (pairwise_idx_lt_scoredOf cfg products sem query userPreferences).imp
      (fun h => Nat.ne_of_lt h)
  have hne : List.Pairwise (fun a b : ScoredEntry => a.idx ≠ b.idx)
      (List.insertionSort rank l) :=
    (hperm.pairwise_iff (fun h => h.symm)).mpr hne_l
  refine List.pairwise_iff_forall_sublist.mpr ?_
  intro a b hsub
  have h1 := List.pairwise_iff_forall_sublist.mp hrank hsub
  have h2 := List.pairwise_iff_forall_sublist.mp hne hsub
  rcases h1 with h1 | ⟨heq, hle⟩
  · exact Or.inl h1
  · exact Or.inr ⟨heq, lt_of_le_of_ne hle h2⟩

/-- C1.  For a non-empty query, any preference set and positive `k`,
`search(q, prefs, k)` succeeds, returns at most `k` entries, every
entry passes every active filter, and the entries are in non-increasing
combined-score order with ties in catalogue order. -/
theorem search_topk_filtered_sorted (cfg : Settings) (products : List Product)
    (sem : ℕ → ℚ) (query : String) (userPreferences : Option UserPreferences)
    (k : ℕ) (hq : pyStrip query ≠ "") (hk : 0 < k) :
    ∃ res, searchRanked cfg products sem query userPreferences (some k) = .ok res ∧
      res.length ≤ k ∧
      (∀ e ∈ res,
        passes_filters e.item.toProduct (parse_filters userPreferences) = true) ∧
      List.Pairwise strictRank res ∧
      search cfg products sem query userPreferences (some k) =
        .ok (res.map ScoredEntry.item) := by
  have hk' : effectiveTopK cfg (some k) = k := by
    simp [effectiveTopK, Nat.pos_iff_ne_zero.mp hk]
  refine ⟨(List.insertionSort rank
      (scoredOf cfg products sem query userPreferences)).take k, ?_, ?_, ?_, ?_, ?_⟩
  · rw [searchRanked_ok hq, hk']
  · rw [List.length_take]
    exact min_le_left _ _
  · intro e he
    have hmem : e ∈ List.insertionSort rank
        (scoredOf cfg products sem query userPreferences) :=
      List.mem_of_mem_take he
    have : e ∈ scoredOf cfg products sem query userPreferences :=
      (List.perm_insertionSort rank _).mem_iff.mp hmem
    exact passes_of_mem_scoredOf this
  · exact (pairwise_strictRank_sorted cfg products sem query userPreferences).sublist
      (List.take_sublist _ _)
  · rw [search, searchRanked_ok hq, hk']
    rfl

/-! ### Concrete fixtures used by witnesses and counterexamples -/

def fixtureLaptop : Product :=
  ⟨"SKU-1", "Lenovo", "ThinkPad", "ThinkPad X1 Carbon",
   "Business ultrabook for travel", "Intel i7-1355U", "Iris Xe",
   "1TB SSD", "16GB", 1999⟩

def fixtureGaming : Product :=
  ⟨"SKU-2", "Asus", "ROG", "ROG Strix G16",
   "Gaming laptop with RTX graphics", "Intel i9", "RTX 4070",
   "1TB", "32GB", 2499⟩

def fixtureBudget : Product :=
  ⟨"SKU-3", "Acer", "Aspire", "Aspire 5",
   "Budget laptop", "Ryzen 5", "Radeon", "512GB", "8GB", 1000⟩

def fixtureRetrievedA : RetrievedProduct := ⟨fixtureLaptop, 1/2, none, none⟩

def fixtureRetrievedB : RetrievedProduct :=
  ⟨fixtureGaming, 1/3, none, some "prior explanation"⟩

def fixtureRetrievedC : RetrievedProduct := ⟨fixtureBudget, 1/4, none, none⟩

/-! ### Filter characterisation -/

theorem pyLower_ne_empty {v : String} (h : v ≠ "") : pyLower v ≠ "" := by
  intro hcontra
  apply h
  cases v with
  | mk d =>
      have hdata := congrArg String.data hcontra
      simp only [pyLower] at hdata
      have hnil : d = [] := by simpa using hdata
      rw [hnil]

theorem price_filter_ok_iff (p : Product) (pr : Option (ℚ × Option ℚ)) :
    price_filter_ok p pr = true ↔
      ∀ lh ∈ pr, lh.1 ≤ p.price ∧ ∀ h ∈ lh.2, p.price ≤ h := by
  cases pr with
  | none => simp [price_filter_ok]
  | some lh =>
      rcases lh with ⟨low, high⟩
      cases high with
      | none =>
          by_cases hlow : p.price < low
          · simp [price_filter_ok, hlow, not_le.mpr hlow]
          · simp [price_filter_ok, hlow, not_lt.mp hlow]
      | some h =>
          by_cases hlow : p.price < low
          · simp [price_filter_ok, hlow, not_le.mpr hlow]
          · simp [price_filter_ok, hlow, not_lt.mp hlow, not_lt]

theorem substr_filter_ok_iff (field : String) (flt : Option String) :
    substr_filter_ok field flt = true ↔
      ∀ v ∈ flt, v ≠ "" → pyInStr v (pyLower field) = true := by
  cases flt with
  | none => simp [substr_filter_ok]
  | some v => by_cases hv : v = "" <;> simp [substr_filter_ok, hv]

theorem substr_bind_iff (field : String) (vend : Option String) :
    (∀ w ∈ (vend.bind fun v => if v = "" then none else some (pyLower v)),
        w ≠ "" → pyInStr w (pyLower field) = true) ↔
      ∀ v ∈ vend, v ≠ "" → pyInStr (pyLower v) (pyLower field) = true := by
  cases vend with
  | none => simp
  | some v =>
      by_cases hv : v = ""
      · simp [hv]
      · simp [hv, Option.bind_some, pyLower_ne_empty hv]

theorem price_parse_iff (p : Product) (pmin pmax : Option ℚ) :
    (∀ lh ∈ (if pmin.isSome || pmax.isSome then
          some (pmin.getD 0, pmax) else none : Option (ℚ × Option ℚ)),
        lh.1 ≤ p.price ∧ ∀ h ∈ lh.2, p.price ≤ h) ↔
      ((pmin.isSome ∨ pmax.isSome) →
        (pmin.getD 0 ≤ p.price ∧ ∀ h ∈ pmax, p.price ≤ h)) := by
  cases hb : (pmin.isSome || pmax.isSome) with
  | false =>
      rw [Bool.or_eq_false_iff] at hb
      simp [hb.1, hb.2]
  | true =>
      have hb2 : pmin.isSome = true ∨ pmax.isSome = true := by simpa using hb
      simp only [hb, if_true, Option.mem_def, Option.some.injEq]
      constructor
      · intro hall _
        exact hall (pmin.getD 0, pmax) rfl
      · intro himp lh hmem
        rw [← hmem]
        exact himp hb2

theorem searchRanked_mem_passes {cfg : Settings} {products : List Product}
    {sem : ℕ → ℚ} {query : String} {userPreferences : Option UserPreferences}
    {topK : Option ℕ} {res : List ScoredEntry}
    (h : searchRanked cfg products sem query userPreferences topK = .ok res) :
    ∀ e ∈ res,
      passes_filters e.item.toProduct (parse_filters userPreferences) = true := by
  by_cases hq : pyStrip query = ""
  · rw [searchRanked, if_pos hq] at h
    cases h
  · rw [searchRanked_ok hq] at h
    injection h with h
    subst h
    intro e he
    exact passes_of_mem_scoredOf
      ((List.perm_insertionSort rank _).mem_iff.mp (List.mem_of_mem_take he))

/-- Witness for C1: the theorem applied to a concrete catalogue,
query and `k = 2`. -/
theorem search_topk_filtered_sorted_witness :
    pyStrip "gaming laptop" ≠ "" ∧ (0 : ℕ) < 2 ∧
    (∃ res, searchRanked ⟨5, true⟩ [fixtureLaptop, fixtureGaming, fixtureBudget]
        (fun _ => 1/2) "gaming laptop" none (some 2) = .ok res ∧
      res.length ≤ 2 ∧
      (∀ e ∈ res, passes_filters e.item.toProduct (parse_filters none) = true) ∧
      List.Pairwise strictRank res ∧
      search ⟨5, true⟩ [fixtureLaptop, fixtureGaming, fixtureBudget]
        (fun _ => 1/2) "gaming laptop" none (some 2) =
          .ok (res.map ScoredEntry.item)) :=
  ⟨by decide, by decide,
    search_topk_filtered_sorted ⟨5, true⟩
      [fixtureLaptop, fixtureGaming, fixtureBudget] (fun _ => 1/2)
      "gaming laptop" none 2 (by decide) (by decide)⟩

/-- C4 counterexample: with an explicit price ceiling of 1000, an item
priced exactly 1000 passes `_passes_filters`, whereas the claim says an
item with price equal to the ceiling is excluded. -/
theorem price_ceiling_counterexample :
    (parse_filters (some ⟨none, some 1000, none, none, none⟩)).priceRange
      = some (0, some 1000) ∧
    fixtureBudget.price = 1000 ∧
    passes_filters fixtureBudget
      (parse_filters (some ⟨none, some 1000, none, none, none⟩)) = true := by
  refine ⟨rfl, rfl, ?_⟩
  decide

/-- C4 (amended): the price filter is inclusive on the floor AND on an
explicit ceiling (an item priced exactly at either bound passes);
vendor/gpu/family are case-insensitive substring tests; and any item
failing a filter is excluded from the search result entirely. -/
theorem filters_hard_gate_characterisation :
    (∀ (p : Product) (u : UserPreferences),
        passes_filters p (parse_filters (some u)) = true ↔
          ((u.priceMin.isSome ∨ u.priceMax.isSome) →
              (u.priceMin.getD 0 ≤ p.price ∧ ∀ h ∈ u.priceMax, p.price ≤ h)) ∧
          (∀ v ∈ u.vendor, v ≠ "" →
              pyInStr (pyLower v) (pyLower p.vendor) = true) ∧
          (∀ g ∈ u.gpu, g ≠ "" →
              pyInStr (pyLower g) (pyLower p.gpu) = true) ∧
          (∀ f ∈ u.family, f ≠ "" →
              pyInStr (pyLower f) (pyLower p.family) = true)) ∧
    (∀ (cfg : Settings) (products : List Product) (sem : ℕ → ℚ) (query : String)
        (userPreferences : Option UserPreferences) (topK : Option ℕ)
        (res : List ScoredEntry),
        searchRanked cfg products sem query userPreferences topK = .ok res →
        ∀ e ∈ res,
          passes_filters e.item.toProduct (parse_filters userPreferences) = true) := by
  constructor
  · intro p u
    obtain ⟨pmin, pmax, vend, gp, fam⟩ := u
    simp only [passes_filters, parse_filters, Bool.and_eq_true,
      price_filter_ok_iff, substr_filter_ok_iff]
    rw [price_parse_iff, substr_bind_iff, substr_bind_iff, substr_bind_iff]
    tauto
  · intro cfg products sem query userPreferences topK res h
    exact searchRanked_mem_passes h

def fixturePrefs : UserPreferences := ⟨some 1500, some 2000, some "LENOVO", none, none⟩

/-- Witness for the amended C4: the characterisation applied to a
concrete product and preference set. -/
theorem filters_hard_gate_characterisation_witness :
    ((fixturePrefs.priceMin.isSome ∨ fixturePrefs.priceMax.isSome) →
        (fixturePrefs.priceMin.getD 0 ≤ fixtureLaptop.price ∧
          ∀ h ∈ fixturePrefs.priceMax, fixtureLaptop.price ≤ h)) ∧
    (∀ v ∈ fixturePrefs.vendor, v ≠ "" →
        pyInStr (pyLower v) (pyLower fixtureLaptop.vendor) = true) ∧
    (∀ g ∈ fixturePrefs.gpu, g ≠ "" →
        pyInStr (pyLower g) (pyLower fixtureLaptop.gpu) = true) ∧
    (∀ f ∈ fixturePrefs.family, f ≠ "" →
        pyInStr (pyLower f) (pyLower fixtureLaptop.family) = true) :=
  (filters_hard_gate_characterisation.1 fixtureLaptop fixturePrefs).mp (by decide)

/-- C9: the keyword bonus equals `min(0.05 × |matched tokens|, 0.2)`,
is zero when no tokens match, never exceeds `0.2`, and is exactly what
`search` adds to the semantic similarity when hybrid search is on. -/
theorem keyword_bonus_formula (query : String) (p : Product) (cfg : Settings)
    (sem : ℕ → ℚ) (i : ℕ) (henable : cfg.enableHybridSearch = true) :
    (keyword_score query p).1 =
      min (((keyword_score query p).2.length : ℚ) * (1 / 20)) (1 / 5) ∧
    ((keyword_score query p).2 = [] → (keyword_score query p).1 = 0) ∧
    (keyword_score query p).1 ≤ 1 / 5 ∧
    (scoreEntry cfg query sem (i, p)).score = sem i + (keyword_score query p).1 := by
  by_cases hm : ((extract_terms query).dedup.filter
      (fun token => token ∈ extract_keywords p)).isEmpty
  · have hks : keyword_score query p = (0, []) := by
      simp only [keyword_score]
      rw [if_pos hm]
    rw [hks]
    refine ⟨by norm_num [min_def], fun _ => rfl, by norm_num, ?_⟩
    simp [scoreEntry, henable, hks]
  · have hks : keyword_score query p =
        (min ((((extract_terms query).dedup.filter
            (fun token => token ∈ extract_keywords p)).length : ℚ) * (1 / 20)) (1 / 5),
          (extract_terms query).dedup.filter (fun token => token ∈ extract_keywords p)) := by
      simp only [keyword_score]
      rw [if_neg hm]
    rw [hks]
    refine ⟨rfl, ?_, min_le_right _ _, ?_⟩
    · intro hnil
      exact absurd (List.isEmpty_iff.mpr hnil) hm
    · simp [scoreEntry, henable, hks]

/-- Witness for C9 at a concrete query and product. -/
theorem keyword_bonus_formula_witness :
    (⟨5, true⟩ : Settings).enableHybridSearch = true ∧
    ((keyword_score "gaming laptop" fixtureGaming).1 =
      min (((keyword_score "gaming laptop" fixtureGaming).2.length : ℚ) * (1 / 20))
        (1 / 5) ∧
    ((keyword_score "gaming laptop" fixtureGaming).2 = [] →
      (keyword_score "gaming laptop" fixtureGaming).1 = 0) ∧
    (keyword_score "gaming laptop" fixtureGaming).1 ≤ 1 / 5 ∧
    (scoreEntry ⟨5, true⟩ "gaming laptop" (fun _ => 0) (0, fixtureGaming)).score =
      (fun _ : ℕ => (0 : ℚ)) 0 + (keyword_score "gaming laptop" fixtureGaming).1) :=
  ⟨rfl, keyword_bonus_formula "gaming laptop" fixtureGaming ⟨5, true⟩ (fun _ => 0) 0 rfl⟩

/-- C10: a requested `top_k` of `0` (or `None`) is replaced by the
configured default `rag_top_k`: the search behaves exactly as if the
default had been requested, and (given a non-empty query, a positive
default and at least one item passing the filters) returns between one
and `rag_top_k` items rather than zero. -/
theorem topk_zero_defaults (cfg : Settings) (products : List Product)
    (sem : ℕ → ℚ) (query : String) (userPreferences : Option UserPreferences)
    (t : Option ℕ) (ht : t = none ∨ t = some 0) (hq : pyStrip query ≠ "")
    (hk : 0 < cfg.ragTopK)
    (hx : ∃ p ∈ products, passes_filters p (parse_filters userPreferences) = true) :
    searchRanked cfg products sem query userPreferences t =
      searchRanked cfg products sem query userPreferences (some cfg.ragTopK) ∧
    ∃ res, searchRanked cfg products sem query userPreferences t = .ok res ∧
      res ≠ [] ∧ res.length ≤ cfg.ragTopK := by
  have hefft : effectiveTopK cfg t = cfg.ragTopK := by
    rcases ht with rfl | rfl <;> simp [effectiveTopK]
  have heffd : effectiveTopK cfg (some cfg.ragTopK) = cfg.ragTopK := by
    simp [effectiveTopK, ite_self]
  constructor
  · rw [searchRanked_ok hq, searchRanked_ok hq, hefft, heffd]
  · rw [searchRanked_ok hq, hefft]
    refine ⟨_, rfl, ?_, ?_⟩
    · obtain ⟨p, hp, hpass⟩ := hx
      obtain ⟨i, hi, heq⟩ := List.mem_iff_getElem.mp hp
      have hmemenum : (i, p) ∈ products.enum := by
        rw [List.mk_mem_enum_iff_getElem?, List.getElem?_eq_getElem hi, heq]
      have hmemf : (i, p) ∈ products.enum.filter
          (fun ip => passes_filters ip.2 (parse_filters userPreferences)) :=
        List.mem_filter.mpr ⟨hmemenum, by simpa using hpass⟩
      have hmems : scoreEntry cfg query sem (i, p) ∈
          scoredOf cfg products sem query userPreferences :=
        List.mem_map_of_mem _ hmemf
      have hsorted : scoreEntry cfg query sem (i, p) ∈
          List.insertionSort rank (scoredOf cfg products sem query userPreferences) :=
        (List.perm_insertionSort rank _).mem_iff.mpr hmems
      have hlen : 0 < (List.insertionSort rank
          (scoredOf cfg products sem query userPreferences)).length :=
        List.length_pos.mpr (List.ne_nil_of_mem hsorted)
      have : 0 < ((List.insertionSort rank
          (scoredOf cfg products sem query userPreferences)).take cfg.ragTopK).length := by
        rw [List.length_take]
        exact lt_min hk hlen
      exact List.length_pos.mp this
    · rw [List.length_take]
      exact min_le_left _ _

/-- Witness for C10: `top_k = 0` with default `rag_top_k = 2` on a
one-item catalogue. -/
theorem topk_zero_defaults_witness :
    pyStrip "laptop" ≠ "" ∧ (0 : ℕ) < 2 ∧
    (∃ p ∈ [fixtureLaptop], passes_filters p (parse_filters none) = true) ∧
    (searchRanked ⟨2, true⟩ [fixtureLaptop] (fun _ => 0) "laptop" none (some 0) =
        searchRanked ⟨2, true⟩ [fixtureLaptop] (fun _ => 0) "laptop" none (some 2) ∧
      ∃ res, searchRanked ⟨2, true⟩ [fixtureLaptop] (fun _ => 0) "laptop" none
          (some 0) = .ok res ∧ res ≠ [] ∧ res.length ≤ 2) :=
  ⟨by decide, by decide, ⟨fixtureLaptop, by simp, by decide⟩,
    topk_zero_defaults ⟨2, true⟩ [fixtureLaptop] (fun _ => 0) "laptop" none
      (some 0) (Or.inr rfl) (by decide) (by decide)
      ⟨fixtureLaptop, by simp, by decide⟩⟩

/-! ### Merge-step and interpreter lemmas -/

theorem merge_of_empty (retrievedProducts : List RetrievedProduct)
    (llmResult : LLMResult) (h : llmResult.recommendations = []) :
    merge_recommendations retrievedProducts llmResult = [] := by
  rw [merge_recommendations, if_pos (List.isEmpty_iff.mpr h)]

theorem merge_sku_mem (retrievedProducts : List RetrievedProduct)
    (llmResult : LLMResult) :
    ∀ p ∈ merge_recommendations retrievedProducts llmResult,
      p.sku ∈ retrievedProducts.map (fun q => q.sku) := by
  intro p hp
  rw [merge_recommendations] at hp
  by_cases hempty : llmResult.recommendations.isEmpty
  · rw [if_pos hempty] at hp
    cases hp
  · rw [if_neg hempty] at hp
    obtain ⟨rec, _, hmap⟩ := List.mem_filterMap.mp hp
    obtain ⟨q, hq, hqp⟩ := Option.map_eq_some'.mp hmap
    have hqmem : q ∈ retrievedProducts.reverse := List.mem_of_find?_eq_some hq
    rw [← hqp]
    exact List.mem_map_of_mem (fun q => q.sku) (List.mem_reverse.mp hqmem)

/-- C3: the merge step returns only products whose SKU occurs in the
retrieved set, and an interpreter result with zero recommendations
merges to the empty list. -/
theorem merge_respects_context (retrievedProducts : List RetrievedProduct)
    (llmResult : LLMResult) :
    (llmResult.recommendations = [] →
      merge_recommendations retrievedProducts llmResult = []) ∧
    ∀ p ∈ merge_recommendations retrievedProducts llmResult,
      p.sku ∈ retrievedProducts.map (fun q => q.sku) :=
  ⟨merge_of_empty retrievedProducts llmResult,
    merge_sku_mem retrievedProducts llmResult⟩

/-- Witness for C3 at a concrete retrieved set and interpreter result. -/
theorem merge_respects_context_witness :
    ((⟨"ok", none, []⟩ : LLMResult).recommendations = [] →
      merge_recommendations [fixtureRetrievedA, fixtureRetrievedB]
        ⟨"ok", none, []⟩ = []) ∧
    ∀ p ∈ merge_recommendations [fixtureRetrievedA, fixtureRetrievedB]
        ⟨"ok", none, []⟩,
      p.sku ∈ [fixtureRetrievedA, fixtureRetrievedB].map (fun q => q.sku) :=
  merge_respects_context [fixtureRetrievedA, fixtureRetrievedB] ⟨"ok", none, []⟩

theorem plain_length_le (text : String) (contextProducts : List RetrievedProduct) :
    (parse_plain_text_response text contextProducts).recommendations.length ≤
      contextProducts.length := by
  simp only [parse_plain_text_response]
  split_ifs with h1 h2 h3
  · simp
  · simp
  · refine le_trans ?_ (List.length_filterMap_le (mentionRec (pyLower text)) contextProducts)
    rw [List.length_take]
    exact min_le_right _ _
  · rw [List.length_map, List.length_take]
    exact min_le_right _ _

def fixtureGhostItem : RecItem :=
  ⟨"GHOST-1", some "Ghost Laptop", some "fits the budget", none, none⟩

def fixtureGhostPayload : Payload :=
  ⟨some "Here you go", none, none, some [fixtureGhostItem], none⟩

def fixtureGhostText : String :=
  "\x7b\"reply\":\"Here you go\",\"product_recommendations\":[\x7b\"sku\":\"GHOST-1\",\"name\":\"Ghost Laptop\",\"rationale\":\"fits the budget\"\x7d]\x7d"

def fixtureGhostLoads : String → Option Payload :=
  fun s => if s = fixtureGhostText then some fixtureGhostPayload else none

/-- C2 counterexample: on a structured payload naming an identifier that
is not in the (empty) context, the interpreter keeps the foreign
recommendation, so its count exceeds the number of context items and
the unknown identifier is returned rather than dropped. -/
theorem interpreter_keeps_foreign_sku_counterexample :
    ¬ ((parse_response_text fixtureGhostLoads (fun _ => none) fixtureGhostText
          []).recommendations.length ≤ ([] : List RetrievedProduct).length) ∧
    (parse_response_text fixtureGhostLoads (fun _ => none) fixtureGhostText
        []).recommendations.map (fun rec => rec.sku) = ["GHOST-1"] := by
  constructor
  · decide
  · decide

/-- C2 (amended): the interpreter alone does not enforce the bound: a
structured payload can make it return more recommendations than context
items, including identifiers absent from the context (see the
counterexample).  What holds is: on every non-JSON (plain-text) response
the interpreter returns at most as many recommendations as context
items, and identifiers absent from the context are dropped at the merge
step, so the merged output only ever names context identifiers. -/
theorem interpreter_merge_bounds (jsonLoads : String → Option Payload)
    (heuristic : String → Option LLMResult) (text : String)
    (contextProducts : List RetrievedProduct) :
    (isJsonLike text = false →
      (parse_response_text jsonLoads heuristic text
          contextProducts).recommendations.length ≤ contextProducts.length) ∧
    (∀ p ∈ merge_recommendations contextProducts
        (parse_response_text jsonLoads heuristic text contextProducts),
      p.sku ∈ contextProducts.map (fun q => q.sku)) := by
  constructor
  · intro hnj
    by_cases htext : text = ""
    · simp [parse_response_text, htext]
    · have hplain : parse_response_text jsonLoads heuristic text contextProducts =
          parse_plain_text_response text contextProducts := by
        rw [parse_response_text, if_neg htext, if_neg (by simp [hnj])]
      rw [hplain]
      exact plain_length_le text contextProducts
  · exact merge_sku_mem contextProducts _

/-- Witness for the amended C2 on a concrete plain-text response. -/
theorem interpreter_merge_bounds_witness :
    (parse_response_text (fun _ => none) (fun _ => none)
        "I suggest the ThinkPad X1 Carbon." [fixtureRetrievedA]).recommendations.length ≤
      [fixtureRetrievedA].length :=
  (interpreter_merge_bounds (fun _ => none) (fun _ => none)
      "I suggest the ThinkPad X1 Carbon." [fixtureRetrievedA]).1 (by decide)

/-- C7: a plain-prose response (not brace-delimited) containing a
question mark yields zero recommendations, whatever vocabulary it uses
and whatever context was supplied. -/
theorem question_plain_text_no_recs (jsonLoads : String → Option Payload)
    (heuristic : String → Option LLMResult) (text : String)
    (contextProducts : List RetrievedProduct)
    (hq : pyInStr "?" text = true) (hnj : isJsonLike text = false) :
    (parse_response_text jsonLoads heuristic text contextProducts).recommendations
      = [] := by
  by_cases htext : text = ""
  · simp [parse_response_text, htext]
  · have hplain : parse_response_text jsonLoads heuristic text contextProducts =
        parse_plain_text_response text contextProducts := by
      rw [parse_response_text, if_neg htext, if_neg (by simp [hnj])]
    rw [hplain]
    have hmem : '?' ∈ text.toList := (pyInStr_question_iff text).mp hq
    have hmemstrip : '?' ∈ (pyStrip text).toList := mem_pyStrip (by decide) hmem
    have hqs : pyInStr "?" (pyStrip text) = true :=
      (pyInStr_question_iff _).mpr hmemstrip
    simp [parse_plain_text_response, hqs]

/-- Witness for C7: a question that also contains recommendation
vocabulary, with context supplied. -/
theorem question_plain_text_no_recs_witness :
    (parse_response_text (fun _ => none) (fun _ => none)
        "Do you prefer gaming or work? I recommend we narrow it down."
        [fixtureRetrievedA, fixtureRetrievedB]).recommendations = [] :=
  question_plain_text_no_recs (fun _ => none) (fun _ => none)
    "Do you prefer gaming or work? I recommend we narrow it down."
    [fixtureRetrievedA, fixtureRetrievedB] (by decide) (by decide)

/-- C5: a structured payload with an empty recommendations list, a
non-empty non-question reply without a denial phrase, and a non-empty
context makes the interpreter synthesize the top-2 context items, each
rationale defaulting to the item's prior explanation or the generic
fallback sentence. -/
theorem empty_payload_falls_back_to_top2
    (jsonLoads : String → Option Payload) (heuristic : String → Option LLMResult)
    (text : String) (payload : Payload) (contextProducts : List RetrievedProduct)
    (hjson : isJsonLike text = true) (hload : jsonLoads text = some payload)
    (hrecs : recsPayloadOf payload = [])
    (hreply : pyStrip (payload.reply.getD "") ≠ "")
    (hq : pyInStr "?" (pyStrip (payload.reply.getD "")) = false)
    (hdeny : reply_indicates_no_results (pyStrip (payload.reply.getD "")) = false)
    (hctx : contextProducts ≠ []) :
    (parse_response_text jsonLoads heuristic text contextProducts).recommendations =
      (contextProducts.take 2).map (fun product =>
        { sku := product.sku
          name := product.name
          rationale := pyOrStr product.explanation
            "Top match based on your requirements."
          confidence := none }) := by
  have htext : text ≠ "" := by
    intro h
    rw [h] at hjson
    exact absurd hjson (by decide)
  rw [parse_response_text, if_neg htext, if_pos hjson, hload]
  have hb : buildRecs contextProducts (recsPayloadOf payload) = [] := by
    rw [hrecs]
    rfl
  have hctx2 : contextProducts.isEmpty = false := by
    cases hc : contextProducts.isEmpty
    · rfl
    · exact absurd (List.isEmpty_iff.mp hc) hctx
  have hreply2 : (pyStrip (payload.reply.getD "") == "") = false := by
    rw [beq_eq_false_iff_ne]
    exact hreply
  simp [structuredResult, hb, hctx2, hreply2, hq, hdeny]

def fixtureEmptyPayload : Payload := ⟨some "Got it", none, none, some [], none⟩

def fixtureEmptyText : String :=
  "\x7b\"reply\":\"Got it\",\"product_recommendations\":[]\x7d"

def fixtureEmptyLoads : String → Option Payload :=
  fun s => if s = fixtureEmptyText then some fixtureEmptyPayload else none

/-- Witness for C5: the spec scenario with three context items. -/
theorem empty_payload_falls_back_to_top2_witness :
    isJsonLike fixtureEmptyText = true ∧
    (parse_response_text fixtureEmptyLoads (fun _ => none) fixtureEmptyText
        [fixtureRetrievedA, fixtureRetrievedB, fixtureRetrievedC]).recommendations =
      ([fixtureRetrievedA, fixtureRetrievedB, fixtureRetrievedC].take 2).map
        (fun product =>
          { sku := product.sku
            name := product.name
            rationale := pyOrStr product.explanation
              "Top match based on your requirements."
            confidence := none }) :=
  ⟨by decide,
    empty_payload_falls_back_to_top2 fixtureEmptyLoads (fun _ => none)
      fixtureEmptyText fixtureEmptyPayload
      [fixtureRetrievedA, fixtureRetrievedB, fixtureRetrievedC]
      (by decide) (by decide) rfl (by decide) (by decide) (by decide) (by decide)⟩

def fixtureDenyPayload : Payload :=
  ⟨some "Unfortunately there are no laptops in that budget.", none, none,
   some [⟨"SKU-2", some "ROG Strix G16", some "closest fit", none, none⟩], none⟩

def fixtureDenyText : String :=
  "\x7b\"reply\":\"Unfortunately there are no laptops in that budget.\",\"product_recommendations\":[\x7b\"sku\":\"SKU-2\",\"name\":\"ROG Strix G16\",\"rationale\":\"closest fit\"\x7d]\x7d"

def fixtureDenyLoads : String → Option Payload :=
  fun s => if s = fixtureDenyText then some fixtureDenyPayload else none

set_option maxRecDepth 4000 in
/-- C6 counterexample: a reply carrying an explicit denial phrase
(`no laptops`) together with a structured payload that still lists a
recommendation: the interpreter returns that recommendation, not zero. -/
theorem denial_phrase_counterexample :
    reply_indicates_no_results
        (parse_response_text fixtureDenyLoads (fun _ => none) fixtureDenyText
          [fixtureRetrievedA, fixtureRetrievedB]).reply = true ∧
    (parse_response_text fixtureDenyLoads (fun _ => none) fixtureDenyText
        [fixtureRetrievedA, fixtureRetrievedB]).recommendations.length = 1 := by
  constructor
  · decide
  · decide

/-- C6 (amended): a denial phrase in the reply makes the interpreter
return zero recommendations whenever the structured payload itself
carries no recommendation entries (the phrase suppresses the context
fallback); payload-listed recommendations are returned regardless. -/
theorem denial_blocks_fallback (jsonLoads : String → Option Payload)
    (heuristic : String → Option LLMResult) (text : String) (payload : Payload)
    (contextProducts : List RetrievedProduct)
    (hjson : isJsonLike text = true) (hload : jsonLoads text = some payload)
    (hrecs : recsPayloadOf payload = [])
    (hdeny : reply_indicates_no_results (pyStrip (payload.reply.getD "")) = true) :
    (parse_response_text jsonLoads heuristic text contextProducts).recommendations
      = [] := by
  have htext : text ≠ "" := by
    intro h
    rw [h] at hjson
    exact absurd hjson (by decide)
  rw [parse_response_text, if_neg htext, if_pos hjson, hload]
  have hb : buildRecs contextProducts (recsPayloadOf payload) = [] := by
    rw [hrecs]
    rfl
  simp [structuredResult, hb, hdeny]

def fixtureDenyEmptyPayload : Payload :=
  ⟨some "Unfortunately there are no laptops in that budget.", none, none,
   some [], none⟩

/-- Witness for the amended C6: denial phrase, empty payload, context
supplied. -/
theorem denial_blocks_fallback_witness :
    (parse_response_text (fun _ => some fixtureDenyEmptyPayload) (fun _ => none)
        "\x7b\x7d" [fixtureRetrievedA, fixtureRetrievedB]).recommendations = [] :=
  denial_blocks_fallback (fun _ => some fixtureDenyEmptyPayload) (fun _ => none)
    "\x7b\x7d" fixtureDenyEmptyPayload [fixtureRetrievedA, fixtureRetrievedB]
    (by decide) rfl rfl (by decide)

/-- C8: the persisted index is used only when both artifacts are present
and both validations pass — the stored vector count equals the catalogue
size and the persisted SKU manifest equals the current catalogue SKU
order; any mismatch or absence triggers a full rebuild that re-embeds
every catalogue item, with no partial repair and no surfaced error. -/
theorem load_or_build_validates (embed : Product → List ℚ)
    (products : List Product) (persisted : Option PersistedIndex) :
    ((load_or_build_index embed products persisted).2 = .loaded ↔
      (∃ st, persisted = some st ∧ st.vectors.length = products.length ∧
        st.skuOrder = products.map Product.sku)) ∧
    ((load_or_build_index embed products persisted).2 = .rebuilt →
      (load_or_build_index embed products persisted).1 =
        products.map embed) := by
  cases persisted with
  | none =>
      constructor
      · constructor
        · intro h
          cases h
        · rintro ⟨st, hst, -⟩
          cases hst
      · intro _
        rfl
  | some st =>
      by_cases hc : st.vectors.length = products.length ∧
          st.skuOrder = products.map Product.sku
      · have heq : load_or_build_index embed products (some st) =
            (st.vectors, .loaded) := by
          simp only [load_or_build_index, if_pos hc]
        rw [heq]
        constructor
        · exact ⟨fun _ => ⟨st, rfl, hc⟩, fun _ => rfl⟩
        · intro h
          cases h
      · have heq : load_or_build_index embed products (some st) =
            (build_index embed products, .rebuilt) := by
          simp only [load_or_build_index, if_neg hc]
        rw [heq]
        constructor
        · constructor
          · intro h
            cases h
          · rintro ⟨st2, hst2, h2⟩
            injection hst2 with hst2
            exact absurd (hst2 ▸ h2) hc
        · intro _
          rfl

/-- Witness for C8: a persisted index with the wrong vector count is
discarded and every item is re-embedded. -/
theorem load_or_build_validates_witness :
    (load_or_build_index (fun _ => [1]) [fixtureLaptop]
        (some ⟨[], ["SKU-9"]⟩)).2 = .rebuilt ∧
    (load_or_build_index (fun _ => [1]) [fixtureLaptop]
        (some ⟨[], ["SKU-9"]⟩)).1 = [[1]] :=
  ⟨by decide,
    (load_or_build_validates (fun _ => [1]) [fixtureLaptop]
        (some ⟨[], ["SKU-9"]⟩)).2 (by decide)⟩
